import Mathlib

/-!
A verification development for the `breathwork` program: a shallow embedding
of its phase/timer state machine and real-time render loop, with theorems
about the behaviour of each component.

Source files embedded here: `breathwork/models.py` (Phase, PhaseState,
ExerciseConfig), `breathwork/timer.py` (Timer), `breathwork/exercise.py`
(Exercise), `breathwork/core.py` (run_exercise), and the constants of
`breathwork/configuration.py`.

Modelling conventions:
 - Python `int` fields become `Int`; monotonic-clock instants and the real
   valued Timer fields become `ℚ`, with the current instant `now` passed
   explicitly to every operation that reads the clock.
 - Methods that may `raise` become functions into `Except String _`; methods
   that mutate `self` return the updated value.  Where Python mutates state
   before a possible raise, the embedding threads the partially updated
   state through the error case as a pair `Except String α × State`.
 - Python's `set` of played beep seconds becomes a `List Int` used as a set.
-/

namespace Breathwork

/-- `PhaseType` from models.py. -/
inductive PhaseType where
  | breathing
  | hold
  deriving DecidableEq, Repr

/-- `PhaseState` from models.py. -/
inductive PhaseState where
  | not_started
  | in_progress
  | countdown
  | completed
  deriving DecidableEq, Repr

/-- `DisplayMode` from models.py. -/
inductive DisplayMode where
  | tui
  | plain
  deriving DecidableEq, Repr

/-- How Python prints a `PhaseState` member inside an f-string
(`str(PhaseState.IN_PROGRESS) = "PhaseState.IN_PROGRESS"`). -/
def PhaseState.pystr : PhaseState → String
  | .not_started => "PhaseState.NOT_STARTED"
  | .in_progress => "PhaseState.IN_PROGRESS"
  | .countdown => "PhaseState.COUNTDOWN"
  | .completed => "PhaseState.COMPLETED"

/-- `Phase` dataclass from models.py: type, duration (seconds), instruction
text, color, and the private lifecycle state (initialised to NOT_STARTED by
the dataclass field default). -/
structure Phase where
  type : PhaseType
  duration : Int
  instruction : String
  color : String
  state : PhaseState
  deriving DecidableEq, Repr

/-- `Phase.start`: requires NOT_STARTED, transitions to IN_PROGRESS. -/
def Phase.start (p : Phase) : Except String Phase :=
  if p.state = PhaseState.not_started then
    .ok { p with state := PhaseState.in_progress }
  else
    .error ("Cannot start phase in state " ++ p.state.pystr)

/-- `Phase.enter_countdown`: requires IN_PROGRESS, transitions to COUNTDOWN. -/
def Phase.enter_countdown (p : Phase) : Except String Phase :=
  if p.state = PhaseState.in_progress then
    .ok { p with state := PhaseState.countdown }
  else
    .error ("Cannot enter countdown from state " ++ p.state.pystr)

/-- `Phase.complete`: requires IN_PROGRESS or COUNTDOWN, transitions to
COMPLETED. -/
def Phase.complete (p : Phase) : Except String Phase :=
  if p.state = PhaseState.in_progress ∨ p.state = PhaseState.countdown then
    .ok { p with state := PhaseState.completed }
  else
    .error ("Cannot complete phase in state " ++ p.state.pystr)

/-- `Phase.is_in_progress` query predicate. -/
def Phase.is_in_progress (p : Phase) : Bool :=
  p.state = PhaseState.in_progress

/-- `Phase.is_completed` query predicate. -/
def Phase.is_completed (p : Phase) : Bool :=
  p.state = PhaseState.completed

/-- `ExerciseConfig` dataclass from models.py. -/
structure ExerciseConfig where
  hold_duration : Int
  step_durations : List Int
  countdown_beep_threshold : Int
  preparation_duration : Int
  audio_enabled : Bool
  display_mode : DisplayMode
  deriving DecidableEq, Repr

/-- The per-step part of `ExerciseConfig.validate`: Python iterates
`enumerate(self.step_durations)` and raises on the first offending entry.
`i` is the zero-based index of the head of the remaining list. -/
def checkStepDurations : Nat → List Int → Except String Unit
  | _, [] => .ok ()
  | i, d :: rest =>
    if d ≤ 0 then
      .error ("All step durations must be positive. Step " ++ toString (i + 1)
        ++ " has invalid duration: " ++ toString d)
    else if d > 120 then
      .error ("Step durations cannot exceed 120 seconds. Step " ++ toString (i + 1)
        ++ " has duration: " ++ toString d)
    else
      checkStepDurations (i + 1) rest

/-- `ExerciseConfig.validate` from models.py. The dataclass `__post_init__`
calls this, so constructing an `ExerciseConfig` succeeds exactly when
`validate` returns without raising. -/
def ExerciseConfig.validate (c : ExerciseConfig) : Except String Unit :=
  if c.hold_duration ≤ 0 then
    .error ("Hold duration must be positive (got " ++ toString c.hold_duration ++ ")")
  else if c.hold_duration > 300 then
    .error ("Hold duration cannot exceed 300 seconds (got "
      ++ toString c.hold_duration ++ ")")
  else if c.step_durations = [] then
    .error "Step durations cannot be empty. Provide at least one breathing step duration."
  else
    match checkStepDurations 0 c.step_durations with
    | .error msg => .error msg
    | .ok () =>
      if c.countdown_beep_threshold < 0 then
        .error ("Countdown beep threshold must be non-negative (got "
          ++ toString c.countdown_beep_threshold ++ ")")
      else if c.preparation_duration < 0 then
        .error ("Preparation duration must be non-negative (got "
          ++ toString c.preparation_duration ++ ")")
      else
        .ok ()

/-- `Timer` from timer.py: duration and countdown threshold are real valued
(`float` in the source), start instant is an optional monotonic timestamp. -/
structure Timer where
  duration : ℚ
  countdown_threshold : ℚ
  start_time : Option ℚ
  is_running : Bool
  deriving DecidableEq, Repr

/-- `Timer.__init__`: validates duration > 0 and countdown_threshold ≥ 0,
raising `ValueError` otherwise; starts in the not-running state. -/
def Timer.make (duration countdown_threshold : ℚ) : Except String Timer :=
  if duration ≤ 0 then
    .error "Duration must be positive"
  else if countdown_threshold < 0 then
    .error "Countdown threshold must be non-negative"
  else
    .ok { duration := duration, countdown_threshold := countdown_threshold,
          start_time := none, is_running := false }

/-- `Timer.start`: raises if already running; otherwise records `now` as the
start instant and marks the timer running. -/
def Timer.start (t : Timer) (now : ℚ) : Except String Timer :=
  if t.is_running then
    .error "Timer is already running"
  else
    .ok { t with start_time := some now, is_running := true }

/-- `Timer.reset`: clears the start instant and the running flag. -/
def Timer.reset (t : Timer) : Timer :=
  { t with start_time := none, is_running := false }

/-- `Timer.elapsed`: 0.0 when never started, else `now - start_time`. -/
def Timer.elapsed (t : Timer) (now : ℚ) : ℚ :=
  match t.start_time with
  | none => 0
  | some s => now - s

/-- `Timer.is_expired`: false when not running, else `elapsed ≥ duration`. -/
def Timer.is_expired (t : Timer) (now : ℚ) : Bool :=
  if t.is_running then decide (t.duration ≤ t.elapsed now) else false

/-- `Timer.remaining_time`: the full duration when not running, else
`max(0, duration - elapsed)`. -/
def Timer.remaining_time (t : Timer) (now : ℚ) : ℚ :=
  if t.is_running then max 0 (t.duration - t.elapsed now) else t.duration

/-- `Timer.in_countdown`: false when not running or threshold is zero, else
`0 < remaining ≤ countdown_threshold`. -/
def Timer.in_countdown (t : Timer) (now : ℚ) : Bool :=
  if t.is_running then
    if t.countdown_threshold = 0 then false
    else decide (0 < t.remaining_time now ∧ t.remaining_time now ≤ t.countdown_threshold)
  else false

/-- `exercise_defaults.PREPARATION_INSTRUCTION` from configuration.py. -/
def PREPARATION_INSTRUCTION : String := "Prepare"

/-- `exercise_defaults.HOLD_INSTRUCTION` from configuration.py. -/
def HOLD_INSTRUCTION : String := "Hold"

/-- `exercise_defaults.BREATHING_INSTRUCTION` from configuration.py.  Note
that this template contains no replacement field. -/
def BREATHING_INSTRUCTION : String := "Breathe"

/-- Character-level worker for `pyFormatDuration`: replaces every occurrence
of the replacement field for the keyword `duration` by the decimal rendering
of `d`, copying all other characters. -/
def replaceDurationField (d : Int) : List Char → List Char
  | '\x7b' :: 'd' :: 'u' :: 'r' :: 'a' :: 't' :: 'i' :: 'o' :: 'n' :: '\x7d' :: rest =>
      (toString d).toList ++ replaceDurationField d rest
  | c :: rest => c :: replaceDurationField d rest
  | [] => []

/-- Python `template.format(duration=d)` restricted to the single keyword
`duration`: every occurrence of the replacement field is substituted by the
decimal rendering of `d`; a template with no replacement field is returned
unchanged. -/
def pyFormatDuration (template : String) (d : Int) : String :=
  String.mk (replaceDurationField d template.toList)

/-- `Exercise` from exercise.py. -/
structure Exercise where
  config : ExerciseConfig
  phases : List Phase
  current_phase_index : Option Nat
  timer : Option Timer
  started : Bool
  completed : Bool
  deriving DecidableEq, Repr

/-- `Exercise.__init__` with an explicit configuration. -/
def Exercise.init (config : ExerciseConfig) : Exercise :=
  { config := config, phases := [], current_phase_index := none,
    timer := none, started := false, completed := false }

/-- `Exercise._generate_phases`: an optional preparation phase, then for each
step duration a Breathing phase followed by a Hold phase, then the final
"Complete" marker phase.  The breathing instruction is
`BREATHING_INSTRUCTION.format(duration=d)`; the colors come from
`display_config.PHASE_COLORS` ("breathing" ↦ "cyan", "hold" ↦ "yellow"). -/
def generate_phases (c : ExerciseConfig) : List Phase :=
  (if c.preparation_duration > 0 then
    [{ type := PhaseType.breathing, duration := c.preparation_duration,
       instruction := PREPARATION_INSTRUCTION, color := "blue",
       state := PhaseState.not_started }]
   else [])
  ++ List.flatten (c.step_durations.map (fun d =>
      [{ type := PhaseType.breathing, duration := d,
         instruction := pyFormatDuration BREATHING_INSTRUCTION d, color := "cyan",
         state := PhaseState.not_started },
       { type := PhaseType.hold, duration := c.hold_duration,
         instruction := HOLD_INSTRUCTION, color := "yellow",
         state := PhaseState.not_started }]))
  ++ [{ type := PhaseType.breathing, duration := 1,
        instruction := "Complete", color := "blue",
        state := PhaseState.not_started }]

/-- `Exercise.start`: rejects an exercise that is already started or already
completed; otherwise generates the phases, places the cursor at index 0,
starts phase 0, and creates and starts a fresh Timer for it.  Python mutates
`self` step by step and a raise leaves the mutations made so far in place,
so the embedding returns the state as updated up to the point of failure. -/
def Exercise.start (e : Exercise) (now : ℚ) : Except String Unit × Exercise :=
  if e.started ∧ ¬ e.completed then
    (.error "Exercise already started", e)
  else if e.completed then
    (.error "Exercise already completed. Call reset() to start again", e)
  else
    let phases := generate_phases e.config
    let e1 : Exercise :=
      { e with phases := phases, started := true, completed := false,
               current_phase_index := some 0 }
    match phases[0]? with
    | none => (.error "IndexError: list index out of range", e1)
    | some p0 =>
      match p0.start with
      | .error msg => (.error msg, e1)
      | .ok p0s =>
        let e2 : Exercise := { e1 with phases := phases.set 0 p0s }
        match Timer.make (p0s.duration : ℚ) (e.config.countdown_beep_threshold : ℚ) with
        | .error msg => (.error msg, e2)
        | .ok t =>
          let e3 : Exercise := { e2 with timer := some t }
          match t.start now with
          | .error msg => (.error msg, e3)
          | .ok ts => (.ok (), { e3 with timer := some ts })

/-- `Exercise.advance_phase`: raises "Exercise not started" when never
started; returns False immediately when already completed; raises "Current
phase not complete" when a live timer exists and is not expired; otherwise
completes the current phase and either moves the cursor forward (starting
the next phase and a fresh Timer, returning True) or, at the last phase,
sets completed and clears the cursor, returning False. -/
def Exercise.advance_phase (e : Exercise) (now : ℚ) : Except String Bool × Exercise :=
  if ¬ e.started then
    (.error "Exercise not started", e)
  else if e.completed then
    (.ok false, e)
  else if (match e.timer with
           | some t => ! t.is_expired now
           | none => false) then
    (.error "Current phase not complete", e)
  else
    match e.current_phase_index with
    | none =>
      -- `self.current_phase_index is not None` fails both guards: the
      -- completion call is skipped and the else-branch terminates the run.
      (.ok false, { e with completed := true, current_phase_index := none })
    | some i =>
      match e.phases[i]? with
      | none => (.error "IndexError: list index out of range", e)
      | some cur =>
        match cur.complete with
        | .error msg => (.error msg, e)
        | .ok curc =>
          let e1 : Exercise := { e with phases := e.phases.set i curc }
          if i < e.phases.length - 1 then
            let e2 : Exercise := { e1 with current_phase_index := some (i + 1) }
            match e1.phases[i + 1]? with
            | none => (.error "IndexError: list index out of range", e2)
            | some nxt =>
              match nxt.start with
              | .error msg => (.error msg, e2)
              | .ok nxts =>
                let e3 : Exercise := { e2 with phases := e1.phases.set (i + 1) nxts }
                match Timer.make (nxts.duration : ℚ) (e.config.countdown_beep_threshold : ℚ) with
                | .error msg => (.error msg, e3)
                | .ok t =>
                  let e4 : Exercise := { e3 with timer := some t }
                  match t.start now with
                  | .error msg => (.error msg, e4)
                  | .ok ts => (.ok true, { e4 with timer := some ts })
          else
            (.ok false, { e1 with completed := true, current_phase_index := none })

/-- `Exercise.get_current_phase`: None before start and after completion,
else the phase under the cursor.  (Python indexes the list directly; the
cursor is in range in every state the program reaches.) -/
def Exercise.get_current_phase (e : Exercise) : Option Phase :=
  if e.started ∧ ¬ e.completed then
    match e.current_phase_index with
    | some i => e.phases[i]?
    | none => none
  else none

/-- `Exercise.is_complete`. -/
def Exercise.is_complete (e : Exercise) : Bool :=
  e.completed

/-- `Exercise.reset`: restores the freshly constructed state, keeping only
the configuration. -/
def Exercise.reset (e : Exercise) : Exercise :=
  { e with phases := [], current_phase_index := none, timer := none,
           started := false, completed := false }

/-- The two audio cue kinds passed to `display.beep` in core.py. -/
inductive Cue where
  | countdown
  | transition
  deriving DecidableEq, Repr

/-- The per-phase cue/redraw bookkeeping of `run_exercise` in core.py:
`last_second` is the last integer remaining value that triggered a redraw
(`-1` initially), `played` is the `countdown_beeps_played` set, and `cues`
accumulates every `display.beep` call as (kind, integer remaining when it
fired), in emission order. -/
structure CueState where
  last_second : Int
  played : List Int
  cues : List (Cue × Int)
  deriving DecidableEq, Repr

/-- The initial cue bookkeeping of `run_exercise`: `last_second = -1` and an
empty `countdown_beeps_played` set. -/
def freshCueState : CueState :=
  { last_second := -1, played := [], cues := [] }

/-- The redraw/cue section of one loop iteration in core.py: when the integer
remaining value differs from `last_second`, redraw, fire the countdown beep
for `1 ≤ remaining ≤ countdown_beep_threshold` when that value is not yet in
the played set, fire the transition beep at `remaining == 0` (suppressed for
the terminal "Complete" phase) when 0 is not yet in the played set, and
record the value as the last redrawn second. -/
def cueTick (audio_enabled : Bool) (threshold : Int) (instruction : String)
    (remaining : Int) (s : CueState) : CueState :=
  if remaining ≠ s.last_second then
    let s1 :=
      if audio_enabled ∧ 1 ≤ remaining ∧ remaining ≤ threshold ∧ remaining ∉ s.played then
        { s with cues := s.cues ++ [(Cue.countdown, remaining)],
                 played := remaining :: s.played }
      else s
    let s2 :=
      if audio_enabled ∧ remaining = 0 ∧ 0 ∉ s1.played ∧ instruction ≠ "Complete" then
        { s1 with cues := s1.cues ++ [(Cue.transition, remaining)],
                  played := 0 :: s1.played }
      else s1
    { s2 with last_second := remaining }
  else s

/-- Folding `cueTick` over the integer remaining values observed by
successive iterations of the loop within a single phase. -/
def cueRun (audio_enabled : Bool) (threshold : Int) (instruction : String)
    (obs : List Int) (s : CueState) : CueState :=
  obs.foldl (fun acc r => cueTick audio_enabled threshold instruction r acc) s

/-- The cue bookkeeping reset performed after every successful
`advance_phase` in core.py: `last_second = -1` and
`countdown_beeps_played.clear()`.  The emission history is an artefact of
the model and is kept. -/
def advanceReset (s : CueState) : CueState :=
  { s with last_second := -1, played := [] }

/-- Replace the phase under the cursor, modelling Python's in-place mutation
of the `Phase` object aliased by `exercise.phases[current_phase_index]`. -/
def Exercise.set_current_phase (e : Exercise) (p : Phase) : Exercise :=
  match e.current_phase_index with
  | some i => { e with phases := e.phases.set i p }
  | none => e

/-- The state carried across iterations of the main loop of `run_exercise`. -/
structure LoopState where
  exercise : Exercise
  cue : CueState
  deriving Repr

/-- The outcome of one iteration of the main loop body in core.py. -/
inductive IterOut where
  | next (st : LoopState)
  | exit (st : LoopState)
  | fail (msg : String) (st : LoopState)
  deriving Repr

/-- One iteration of the `while not exercise.is_complete()` body of
`run_exercise`, at monotonic instant `now`: read phase and timer (break if
either is absent); enter countdown at the in_countdown ∧ is_in_progress
edge; run the redraw/cue section on the truncated remaining seconds; if the
timer has expired, advance (an advance_phase returning False breaks out of
the loop, success resets the per-phase cue bookkeeping).  A raise escapes to
the `except Exception` handler of `run_exercise`. -/
def loopIter (c : ExerciseConfig) (st : LoopState) (now : ℚ) : IterOut :=
  match st.exercise.get_current_phase, st.exercise.timer with
  | some phase, some timer =>
    let stepA : Except String (Exercise × Phase) :=
      if timer.in_countdown now ∧ phase.is_in_progress then
        match phase.enter_countdown with
        | .error msg => .error msg
        | .ok p => .ok (st.exercise.set_current_phase p, p)
      else .ok (st.exercise, phase)
    match stepA with
    | .error msg => .fail msg st
    | .ok (ex1, phase1) =>
      -- `remaining = int(timer.remaining_time())`; remaining_time is ≥ 0 so
      -- Python's truncation toward zero is the floor.
      let remaining : Int := ⌊timer.remaining_time now⌋
      let cue1 := cueTick c.audio_enabled c.countdown_beep_threshold
        phase1.instruction remaining st.cue
      if timer.is_expired now then
        match ex1.advance_phase now with
        | (.error msg, ex2) => .fail msg { exercise := ex2, cue := cue1 }
        | (.ok false, ex2) => .exit { exercise := ex2, cue := cue1 }
        | (.ok true, ex2) => .next { exercise := ex2, cue := advanceReset cue1 }
      else
        .next { exercise := ex1, cue := cue1 }
  | _, _ => .exit st

/-- The code following the main loop in `run_exercise`: if the exercise is
somehow not complete, force one advance and start and render the final
phase; then report success.  A raise escapes to the handler. -/
def postLoop (st : LoopState) (now : ℚ) : Except String (Bool × LoopState) :=
  if st.exercise.is_complete then
    .ok (true, st)
  else
    match st.exercise.advance_phase now with
    | (.error msg, _) => .error msg
    | (.ok _, ex1) =>
      match ex1.get_current_phase with
      | none => .ok (true, { st with exercise := ex1 })
      | some fp =>
        match fp.start with
        | .error msg => .error msg
        | .ok fps => .ok (true, { st with exercise := ex1.set_current_phase fps })

/-- The main loop of `run_exercise`, driven by a clock that starts at `now`
and advances by `dt` across the end-of-iteration sleep.  `fuel` bounds the
number of iterations considered; `none` means the bound was reached with
the loop still running. -/
def loopRun (c : ExerciseConfig) (fuel : Nat) (st : LoopState) (now dt : ℚ) :
    Option (Except String (Bool × LoopState)) :=
  match fuel with
  | 0 => none
  | fuel' + 1 =>
    if st.exercise.is_complete then
      some (postLoop st now)
    else
      match loopIter c st now with
      | .next st' => loopRun c fuel' st' (now + dt) dt
      | .exit st' => some (postLoop st' now)
      | .fail msg _ => some (.error msg)

/-- `run_exercise` from core.py under the clock model `now_k = t0 + k·dt`:
construct the Exercise, start it, and run the main loop; the
`except Exception` handler converts any raise inside the loop into a False
return.  (A raise in `exercise.start()` happens outside the try block and
propagates; the `.error` result records that.)  The Bool result is the
return value of `run_exercise`. -/
def run_exercise (c : ExerciseConfig) (fuel : Nat) (t0 dt : ℚ) :
    Except String (Option Bool) :=
  let e0 := Exercise.init c
  match e0.start t0 with
  | (.error msg, _) => .error msg
  | (.ok _, e1) =>
    match loopRun c fuel { exercise := e1, cue := freshCueState } t0 dt with
    | none => .ok none
    | some (.error _) => .ok (some false)
    | some (.ok (b, _)) => .ok (some b)

/-- Position of a `PhaseState` along the forward-only lifecycle
NotStarted → InProgress → Countdown → Completed. -/
def stateRank : PhaseState → Nat
  | .not_started => 0
  | .in_progress => 1
  | .countdown => 2
  | .completed => 3

/-- The lifecycle state of the phase stored at index `j`. -/
def stateAt (e : Exercise) (j : Nat) : Option PhaseState :=
  (e.phases[j]?).map Phase.state

/-- The cursor invariant of the Exercise data model: the cursor is in range,
the phase under it is InProgress or Countdown, every phase before it is
Completed, and every phase after it is NotStarted. -/
def Exercise.CursorInv (e : Exercise) (i : Nat) : Prop :=
  i < e.phases.length ∧
  ∀ j < e.phases.length,
    (j < i → stateAt e j = some PhaseState.completed) ∧
    (j = i → stateAt e j = some PhaseState.in_progress ∨
             stateAt e j = some PhaseState.countdown) ∧
    (i < j → stateAt e j = some PhaseState.not_started)

instance (e : Exercise) (i : Nat) : Decidable (e.CursorInv i) := by
  unfold Exercise.CursorInv
  exact instDecidableAnd

/-- The exercise states reachable through the public interface: a successful
`start()` on a freshly constructed Exercise, followed by any number of
successful `advance_phase()` calls. -/
inductive ReachableRun : Exercise → Prop where
  | start_ok (c : ExerciseConfig) (now : ℚ) (e : Exercise) :
      (Exercise.init c).start now = (.ok (), e) → ReachableRun e
  | advance_ok (e : Exercise) (now : ℚ) (b : Bool) (e' : Exercise) :
      ReachableRun e → e.advance_phase now = (.ok b, e') → ReachableRun e'

/-- The configuration of the worked example: hold=60, steps=[30,20,10],
countdown=5, prep=0. -/
def exampleConfig : ExerciseConfig :=
  { hold_duration := 60, step_durations := [30, 20, 10],
    countdown_beep_threshold := 5, preparation_duration := 0,
    audio_enabled := true, display_mode := DisplayMode.tui }

/-- A configuration with an empty step list (otherwise well formed). -/
def emptyStepsConfig : ExerciseConfig :=
  { hold_duration := 60, step_durations := [],
    countdown_beep_threshold := 5, preparation_duration := 0,
    audio_enabled := true, display_mode := DisplayMode.tui }

/-- A configuration with hold_duration = 301 (otherwise well formed). -/
def hold301Config : ExerciseConfig :=
  { hold_duration := 301, step_durations := [30, 20, 10],
    countdown_beep_threshold := 5, preparation_duration := 0,
    audio_enabled := true, display_mode := DisplayMode.tui }

/-- The one-breathing-step, duration-1, no-preparation, audio-off
configuration of the full-run example. -/
def oneStepConfig : ExerciseConfig :=
  { hold_duration := 1, step_durations := [1],
    countdown_beep_threshold := 0, preparation_duration := 0,
    audio_enabled := false, display_mode := DisplayMode.plain }

/-- Number of "countdown" cues emitted for the integer remaining value `r`. -/
def countdownCueCount (s : CueState) (r : Int) : Nat :=
  s.cues.countP (fun c => decide (c = (Cue.countdown, r)))

/-- Number of "transition" cues emitted. -/
def transitionCueCount (s : CueState) : Nat :=
  s.cues.countP (fun c => decide (c.1 = Cue.transition))

/-- Per-phase cue bookkeeping invariant: every countdown cue value occurs at
most once and is recorded in the played set, countdown cue values lie in
[1, threshold], at most one transition cue fires, it only fires with value
0 recorded in the played set, and no transition cue fires for the terminal
"Complete" phase. -/
def CueInv (thr : Int) (instr : String) (s : CueState) : Prop :=
  (∀ r : Int, countdownCueCount s r ≤ 1) ∧
  (∀ r : Int, 0 < countdownCueCount s r → r ∈ s.played) ∧
  (∀ c ∈ s.cues, c.1 = Cue.countdown → 1 ≤ c.2 ∧ c.2 ≤ thr) ∧
  transitionCueCount s ≤ 1 ∧
  (0 < transitionCueCount s → 0 ∈ s.played) ∧
  (∀ c ∈ s.cues, c.1 = Cue.transition → c.2 = 0) ∧
  (instr = "Complete" → transitionCueCount s = 0)

/-- A running timer of 10 seconds with a 3 second countdown threshold,
started at instant 0. -/
def witnessTimer : Timer :=
  { duration := 10, countdown_threshold := 3, start_time := some 0,
    is_running := true }

/-- A freshly generated breathing phase. -/
def witnessPhase : Phase :=
  { type := PhaseType.breathing, duration := 5, instruction := "Breathe",
    color := "cyan", state := PhaseState.not_started }

/-- The exercise obtained by starting `oneStepConfig` at instant 0. -/
def startedOneStep : Exercise :=
  ((Exercise.init oneStepConfig).start 0).2

/-- An exercise that has already run to completion. -/
def completedExercise : Exercise :=
  { config := oneStepConfig, phases := [], current_phase_index := none,
    timer := none, started := true, completed := true }

/-! ## Theorems -/

/-- C1: phase generation for hold=60, steps=[30,20,10], countdown=5, prep=0
yields exactly the 7 phases Breathe(30), Hold(60), Breathe(20), Hold(60),
Breathe(10), Hold(60), Complete(1), in order, with no leading preparation
phase — but the step breathing phases are labeled "Breathe", not
"Breathe 30s" as claimed: the `BREATHING_INSTRUCTION` template contains no
replacement field, so `format(duration=d)` returns it unchanged. -/
theorem C1_phase_generation_example :
    ((generate_phases exampleConfig).map (fun p => (p.type, p.duration)) =
      [(PhaseType.breathing, 30), (PhaseType.hold, 60),
       (PhaseType.breathing, 20), (PhaseType.hold, 60),
       (PhaseType.breathing, 10), (PhaseType.hold, 60),
       (PhaseType.breathing, 1)]) ∧
    ((generate_phases exampleConfig).map Phase.instruction =
      ["Breathe", "Hold", "Breathe", "Hold", "Breathe", "Hold", "Complete"]) ∧
    (∀ d : Int, pyFormatDuration BREATHING_INSTRUCTION d = BREATHING_INSTRUCTION) ∧
    BREATHING_INSTRUCTION ≠ "Breathe 30s" :=
  ⟨rfl, rfl, fun _ => rfl, by decide⟩

/-- C3: for every Phase, `start` succeeds exactly from NotStarted (moving to
InProgress), `enter_countdown` succeeds exactly from InProgress (moving to
Countdown), `complete` succeeds exactly from InProgress or Countdown (moving
to Completed); every other call returns an error and produces no state, and
every successful transition strictly increases the lifecycle rank, so no
transition ever goes backward. -/
theorem C3_phase_state_machine (p : Phase) :
    (p.state = PhaseState.not_started →
      p.start = .ok { p with state := PhaseState.in_progress }) ∧
    (p.state ≠ PhaseState.not_started →
      p.start = .error ("Cannot start phase in state " ++ p.state.pystr)) ∧
    (p.state = PhaseState.in_progress →
      p.enter_countdown = .ok { p with state := PhaseState.countdown }) ∧
    (p.state ≠ PhaseState.in_progress →
      p.enter_countdown = .error ("Cannot enter countdown from state " ++ p.state.pystr)) ∧
    (p.state = PhaseState.in_progress ∨ p.state = PhaseState.countdown →
      p.complete = .ok { p with state := PhaseState.completed }) ∧
    (¬(p.state = PhaseState.in_progress ∨ p.state = PhaseState.countdown) →
      p.complete = .error ("Cannot complete phase in state " ++ p.state.pystr)) ∧
    (∀ q, p.start = .ok q → stateRank p.state < stateRank q.state) ∧
    (∀ q, p.enter_countdown = .ok q → stateRank p.state < stateRank q.state) ∧
    (∀ q, p.complete = .ok q → stateRank p.state < stateRank q.state) := by
  rcases p with ⟨ty, dur, instr, col, st⟩
  cases st <;>
    simp [Phase.start, Phase.enter_countdown, Phase.complete, stateRank]

/-- C3 witness: a NotStarted phase starts successfully into InProgress. -/
theorem C3_witness :
    witnessPhase.start = .ok { witnessPhase with state := PhaseState.in_progress } :=
  (C3_phase_state_machine witnessPhase).1 rfl

/-- C5: `in_countdown` is true exactly when the timer is running, the
countdown threshold is positive, and the remaining time lies in the
open-closed interval (0, countdown_threshold]; in particular it is false at
remaining = 0, false when the threshold is 0, and false when not running. -/
theorem C5_in_countdown_iff (t : Timer) (now : ℚ) :
    (t.in_countdown now = true ↔
      (t.is_running = true ∧ 0 < t.countdown_threshold ∧
       0 < t.remaining_time now ∧ t.remaining_time now ≤ t.countdown_threshold)) ∧
    (t.remaining_time now = 0 → t.in_countdown now = false) ∧
    (t.countdown_threshold = 0 → t.in_countdown now = false) ∧
    (t.is_running = false → t.in_countdown now = false) := by
  have hmain : t.in_countdown now = true ↔
      (t.is_running = true ∧ 0 < t.countdown_threshold ∧
       0 < t.remaining_time now ∧ t.remaining_time now ≤ t.countdown_threshold) := by
    unfold Timer.in_countdown
    split_ifs with hr h0
    · constructor
      · intro h; simp at h
      · rintro ⟨-, hpos, -, -⟩; rw [h0] at hpos; exact absurd hpos (lt_irrefl 0)
    · constructor
      · intro h
        rw [decide_eq_true_eq] at h
        exact ⟨hr, lt_of_lt_of_le h.1 h.2, h.1, h.2⟩
      · intro h
        rw [decide_eq_true_eq]
        exact ⟨h.2.2.1, h.2.2.2⟩
    · constructor
      · intro h; simp at h
      · rintro ⟨hrun, -, -, -⟩; exact absurd hrun hr
  refine ⟨hmain, ?_, ?_, ?_⟩
  · intro h
    cases hic : t.in_countdown now with
    | false => rfl
    | true =>
      have := (hmain.mp hic).2.2.1
      rw [h] at this
      exact absurd this (lt_irrefl 0)
  · intro h
    cases hic : t.in_countdown now with
    | false => rfl
    | true =>
      have := (hmain.mp hic).2.1
      rw [h] at this
      exact absurd this (lt_irrefl 0)
  · intro h
    cases hic : t.in_countdown now with
    | false => rfl
    | true =>
      have := (hmain.mp hic).1
      rw [h] at this
      exact absurd this (by decide)

/-- C5 witness: a started 10-second timer with threshold 3 observed at
instant 8 (remaining 2) is in countdown. -/
theorem C5_witness : witnessTimer.in_countdown 8 = true :=
  (C5_in_countdown_iff witnessTimer 8).1.mpr
    ⟨rfl, by norm_num [witnessTimer],
     by norm_num [witnessTimer, Timer.remaining_time, Timer.elapsed],
     by norm_num [witnessTimer, Timer.remaining_time, Timer.elapsed]⟩

/-- C9: resetting a Timer — running or expired or not — returns it to the
not-running state: elapsed is 0, remaining is the full configured duration,
it is neither expired nor in countdown, and `start` succeeds again, so a
Timer is restartable through its public interface. -/
theorem C9_timer_reset (t : Timer) (now later : ℚ) :
    t.reset.is_running = false ∧
    t.reset.elapsed now = 0 ∧
    t.reset.remaining_time now = t.duration ∧
    t.reset.is_expired now = false ∧
    t.reset.in_countdown now = false ∧
    t.reset.start later =
      .ok { t with start_time := some later, is_running := true } :=
  ⟨rfl, rfl, rfl, rfl, rfl, rfl⟩

/-- Helper: the per-step validation pass succeeds exactly when every step
duration lies in [1, 120], regardless of the starting index. -/
theorem checkStepDurations_ok_iff (l : List Int) (i : Nat) :
    checkStepDurations i l = .ok () ↔ ∀ d ∈ l, 1 ≤ d ∧ d ≤ 120 := by
  induction l generalizing i with
  | nil => simp [checkStepDurations]
  | cons d rest ih =>
    simp only [checkStepDurations, List.mem_cons]
    split_ifs with h1 h2
    · constructor
      · intro h; simp at h
      · intro h; exact absurd (h d (Or.inl rfl)) (by omega)
    · constructor
      · intro h; simp at h
      · intro h; exact absurd (h d (Or.inl rfl)) (by omega)
    · rw [ih]
      constructor
      · intro h e he
        rcases he with rfl | he
        · omega
        · exact h e he
      · intro h e he
        exact h e (Or.inr he)

/-- Helper: `ExerciseConfig.validate` succeeds exactly when every field bound
holds. -/
theorem validate_ok_iff (c : ExerciseConfig) :
    c.validate = .ok () ↔
      (1 ≤ c.hold_duration ∧ c.hold_duration ≤ 300 ∧
       c.step_durations ≠ [] ∧
       (∀ d ∈ c.step_durations, 1 ≤ d ∧ d ≤ 120) ∧
       0 ≤ c.countdown_beep_threshold ∧ 0 ≤ c.preparation_duration) := by
  unfold ExerciseConfig.validate
  split_ifs with h1 h2 h3 h4 h5
  · constructor
    · intro h; simp at h
    · intro h; exact absurd h.1 (by omega)
  · constructor
    · intro h; simp at h
    · intro h; exact absurd h.2.1 (by omega)
  · constructor
    · intro h; simp at h
    · intro h; exact absurd h3 h.2.2.1
  · rcases hce : checkStepDurations 0 c.step_durations with msg | ⟨⟩
    · constructor
      · intro h; simp at h
      · intro h; exact absurd h.2.2.2.2.1 (by omega)
    · constructor
      · intro h; simp at h
      · intro h; exact absurd h.2.2.2.2.1 (by omega)
  · rcases hce : checkStepDurations 0 c.step_durations with msg | ⟨⟩
    · constructor
      · intro h; simp at h
      · intro h; exact absurd h.2.2.2.2.2 (by omega)
    · constructor
      · intro h; simp at h
      · intro h; exact absurd h.2.2.2.2.2 (by omega)
  · rcases hce : checkStepDurations 0 c.step_durations with msg | ⟨⟩
    · constructor
      · intro h; simp at h
      · intro h
        have hok := (checkStepDurations_ok_iff c.step_durations 0).mpr h.2.2.2.1
        rw [hce] at hok
        simp at hok
    · have hsteps := (checkStepDurations_ok_iff c.step_durations 0).mp (by rw [hce])
      constructor
      · intro _
        exact ⟨by omega, by omega, h3, hsteps, by omega, by omega⟩
      · intro _
        rfl

/-- C7: validation (run by the dataclass constructor) succeeds exactly when
hold_duration ∈ [1, 300], step_durations is non-empty with every element in
[1, 120], countdown_beep_threshold ≥ 0 and preparation_duration ≥ 0; an
empty step list fails with the "cannot be empty" message, and
hold_duration = 301 fails citing the 300-second upper bound. -/
theorem C7_config_validation :
    (∀ c : ExerciseConfig,
      c.validate = .ok () ↔
        (1 ≤ c.hold_duration ∧ c.hold_duration ≤ 300 ∧
         c.step_durations ≠ [] ∧
         (∀ d ∈ c.step_durations, 1 ≤ d ∧ d ≤ 120) ∧
         0 ≤ c.countdown_beep_threshold ∧ 0 ≤ c.preparation_duration)) ∧
    emptyStepsConfig.validate =
      .error "Step durations cannot be empty. Provide at least one breathing step duration." ∧
    hold301Config.validate =
      .error "Hold duration cannot exceed 300 seconds (got 301)" :=
  ⟨validate_ok_iff, rfl, rfl⟩

/-- Helper: when the step durations are all positive, the generated phase
list has a first element, it is NotStarted, and its duration is positive. -/
theorem generate_phases_head (c : ExerciseConfig)
    (hsteps : ∀ d ∈ c.step_durations, 1 ≤ d) :
    ∃ p0, (generate_phases c)[0]? = some p0 ∧
      p0.state = PhaseState.not_started ∧ 0 < p0.duration := by
  unfold generate_phases
  split_ifs with hp
  · exact ⟨{ type := PhaseType.breathing, duration := c.preparation_duration,
             instruction := PREPARATION_INSTRUCTION, color := "blue",
             state := PhaseState.not_started }, by simp, rfl,
           by show 0 < c.preparation_duration; omega⟩
  · cases hsd : c.step_durations with
    | nil =>
      exact ⟨{ type := PhaseType.breathing, duration := 1,
               instruction := "Complete", color := "blue",
               state := PhaseState.not_started }, by simp [hsd], rfl, by norm_num⟩
    | cons d rest =>
      refine ⟨{ type := PhaseType.breathing, duration := d,
                instruction := pyFormatDuration BREATHING_INSTRUCTION d,
                color := "cyan", state := PhaseState.not_started },
              by simp [hsd], rfl, ?_⟩
      have := hsteps d (by rw [hsd]; exact List.mem_cons_self d rest)
      show 0 < d
      omega

/-- C10: `reset` restores the initial state of an Exercise (empty phase
list, no cursor, no timer, flags cleared) while keeping the stored
configuration; `start` on a completed Exercise refuses with the "already
completed" error and changes nothing, and after `reset` a `start` succeeds
(for a valid configuration) and regenerates the phase sequence from the
same stored configuration. -/
theorem C10_exercise_reset (e : Exercise) (now : ℚ) :
    (e.reset = { config := e.config, phases := [], current_phase_index := none,
                 timer := none, started := false, completed := false }) ∧
    (e.completed = true →
      e.start now =
        (.error "Exercise already completed. Call reset() to start again", e)) ∧
    (e.config.validate = .ok () →
      ∃ p0, (generate_phases e.config)[0]? = some p0 ∧
        e.reset.start now =
          (.ok (),
           { config := e.config,
             phases := (generate_phases e.config).set 0
               { p0 with state := PhaseState.in_progress },
             current_phase_index := some 0,
             timer := some { duration := (p0.duration : ℚ),
                             countdown_threshold := (e.config.countdown_beep_threshold : ℚ),
                             start_time := some now, is_running := true },
             started := true, completed := false })) := by
  refine ⟨rfl, ?_, ?_⟩
  · intro hc
    unfold Exercise.start
    rw [if_neg (by simp [hc]), if_pos (by simp [hc])]
  · intro hv
    obtain ⟨-, -, -, h4, h5, -⟩ := (validate_ok_iff e.config).mp hv
    obtain ⟨p0, hp0, hst, hdur⟩ :=
      generate_phases_head e.config (fun d hd => (h4 d hd).1)
    refine ⟨p0, hp0, ?_⟩
    unfold Exercise.start
    rw [if_neg (by simp [Exercise.reset]), if_neg (by simp [Exercise.reset])]
    have hp0' : (generate_phases e.reset.config)[0]? = some p0 := hp0
    simp only [Exercise.reset] at hp0' ⊢
    rw [hp0']
    have hd : ¬((p0.duration : ℚ) ≤ 0) := by push_neg; exact_mod_cast hdur
    have ht : ¬((e.config.countdown_beep_threshold : ℚ) < 0) := by
      push_neg; exact_mod_cast h5
    simp [Phase.start, Timer.make, Timer.start, hst, hd, ht]

/-- C10 witness: starting an already-completed Exercise fails with the
"already completed" error, and after `reset` the start succeeds. -/
theorem C10_witness :
    (completedExercise.start 0).1 =
      .error "Exercise already completed. Call reset() to start again" ∧
    (completedExercise.reset.start 0).1 = .ok () := by
  have h := C10_exercise_reset completedExercise 0
  constructor
  · rw [h.2.1 rfl]
  · obtain ⟨p0, hp0, heq⟩ := h.2.2 (by rfl)
    rw [heq]

/-- C2: `advance_phase` on a never-started Exercise fails with "not started";
on a completed one it returns false without error and without change; with a
live unexpired timer it fails with "current phase not complete" leaving the
state unchanged; with an expired timer it marks the current phase Completed
and either advances the cursor by exactly one, starts the next phase,
installs a fresh started Timer built from the next phase's duration and the
configured countdown threshold and returns true, or — at the last phase —
sets completed, clears the cursor and returns false. -/
theorem C2_advance_phase (e : Exercise) (now : ℚ) :
    (e.started = false →
      e.advance_phase now = (.error "Exercise not started", e)) ∧
    (e.started = true → e.completed = true →
      e.advance_phase now = (.ok false, e)) ∧
    (∀ t, e.started = true → e.completed = false → e.timer = some t →
      t.is_expired now = false →
      e.advance_phase now = (.error "Current phase not complete", e)) ∧
    (∀ t i, e.started = true → e.completed = false → e.timer = some t →
      t.is_expired now = true → e.current_phase_index = some i → e.CursorInv i →
      (∀ p ∈ e.phases, 0 < p.duration) → 0 ≤ e.config.countdown_beep_threshold →
      ((i + 1 < e.phases.length →
        ∃ cur nxt, e.phases[i]? = some cur ∧ e.phases[i + 1]? = some nxt ∧
          e.advance_phase now =
            (.ok true,
             { e with
               phases := (e.phases.set i { cur with state := PhaseState.completed }).set
                 (i + 1) { nxt with state := PhaseState.in_progress },
               current_phase_index := some (i + 1),
               timer := some { duration := (nxt.duration : ℚ),
                               countdown_threshold := (e.config.countdown_beep_threshold : ℚ),
                               start_time := some now, is_running := true } })) ∧
       (i + 1 = e.phases.length →
        ∃ cur, e.phases[i]? = some cur ∧
          e.advance_phase now =
            (.ok false,
             { e with
               phases := e.phases.set i { cur with state := PhaseState.completed },
               completed := true, current_phase_index := none })))) := by
  refine ⟨?_, ?_, ?_, ?_⟩
  · intro hns
    simp [Exercise.advance_phase, hns]
  · intro hs hc
    simp [Exercise.advance_phase, hs, hc]
  · intro t hs hc ht hexp
    simp [Exercise.advance_phase, hs, hc, ht, hexp]
  · intro t i hs hc ht hexp hidx hinv hdurs hthr
    obtain ⟨hlen, hall⟩ := hinv
    have hcur : e.phases[i]? = some e.phases[i] := List.getElem?_eq_getElem hlen
    have hcs : e.phases[i].state = PhaseState.in_progress ∨
        e.phases[i].state = PhaseState.countdown := by
      have := (hall i hlen).2.1 rfl
      unfold stateAt at this
      rw [hcur] at this
      simpa using this
    have hcomp : (e.phases[i]).complete =
        .ok { e.phases[i] with state := PhaseState.completed } := by
      unfold Phase.complete
      rw [if_pos hcs]
    constructor
    · intro hbr
      have hnxt : e.phases[i + 1]? = some e.phases[i + 1] :=
        List.getElem?_eq_getElem hbr
      have hnst : e.phases[i + 1].state = PhaseState.not_started := by
        have := (hall (i + 1) hbr).2.2 (by omega)
        unfold stateAt at this
        rw [hnxt] at this
        simpa using this
      have hnext : (e.phases.set i { e.phases[i] with
          state := PhaseState.completed })[i + 1]? = some e.phases[i + 1] := by
        rw [List.getElem?_set_ne (by omega)]
        exact hnxt
      have hnstart : (e.phases[i + 1]).start =
          .ok { e.phases[i + 1] with state := PhaseState.in_progress } := by
        unfold Phase.start
        rw [if_pos hnst]
      have hmem : e.phases[i + 1] ∈ e.phases := List.getElem_mem hbr
      have hd : ¬((e.phases[i + 1].duration : ℚ) ≤ 0) := by
        push_neg
        exact_mod_cast hdurs _ hmem
      have htt : ¬((e.config.countdown_beep_threshold : ℚ) < 0) := by
        push_neg
        exact_mod_cast hthr
      refine ⟨e.phases[i], e.phases[i + 1], hcur, hnxt, ?_⟩
      have hbr' : i < e.phases.length - 1 := by omega
      simp [Exercise.advance_phase, hs, hc, ht, hexp, hidx, hcur, hcomp,
        hnext, hnstart, hbr', Timer.make, Timer.start, hd, htt]
    · intro hlast
      have hbr' : ¬(i < e.phases.length - 1) := by omega
      refine ⟨e.phases[i], hcur, ?_⟩
      simp [Exercise.advance_phase, hs, hc, ht, hexp, hidx, hcur, hcomp, hbr']

/-- C2 witness: one successful expired-timer advance on the concrete
one-step exercise returns true. -/
theorem C2_witness : (startedOneStep.advance_phase 5).1 = .ok true := by
  have h := (C2_advance_phase startedOneStep 5).2.2.2
    { duration := 1, countdown_threshold := 0, start_time := some 0,
      is_running := true } 0 rfl rfl rfl
    (by norm_num [Timer.is_expired, Timer.elapsed]) rfl (by decide)
    (by decide) (by decide)
  obtain ⟨cur, nxt, -, -, heq⟩ := h.1 (by decide)
  rw [heq]

/-- Helper: `advance_phase` with an expired (or absent) live timer, a
cursor with a next phase, a completable current phase, a startable next
phase and a constructible next Timer advances exactly one index. -/
theorem advance_phase_success (e : Exercise) (now : ℚ) (i : Nat) (cur nxt : Phase)
    (hs : e.started = true) (hc : e.completed = false)
    (htm : (match e.timer with | some t => ! t.is_expired now | none => false) = false)
    (hidx : e.current_phase_index = some i)
    (hcur : e.phases[i]? = some cur)
    (hcs : cur.state = PhaseState.in_progress ∨ cur.state = PhaseState.countdown)
    (hbr : i + 1 < e.phases.length)
    (hnxt : e.phases[i + 1]? = some nxt)
    (hnst : nxt.state = PhaseState.not_started)
    (hd : ¬(nxt.duration : ℚ) ≤ 0)
    (hth : ¬(e.config.countdown_beep_threshold : ℚ) < 0) :
    e.advance_phase now =
      (.ok true,
       { e with
         phases := (e.phases.set i { cur with state := PhaseState.completed }).set
           (i + 1) { nxt with state := PhaseState.in_progress },
         current_phase_index := some (i + 1),
         timer := some { duration := (nxt.duration : ℚ),
                         countdown_threshold := (e.config.countdown_beep_threshold : ℚ),
                         start_time := some now, is_running := true } }) := by
  have hcomp : cur.complete = .ok { cur with state := PhaseState.completed } := by
    unfold Phase.complete
    rw [if_pos hcs]
  have hnext : (e.phases.set i { cur with state := PhaseState.completed })[i + 1]? =
      some nxt := by
    rw [List.getElem?_set_ne (by omega)]
    exact hnxt
  have hnstart : nxt.start = .ok { nxt with state := PhaseState.in_progress } := by
    unfold Phase.start
    rw [if_pos hnst]
  have hbr' : i < e.phases.length - 1 := by omega
  simp [Exercise.advance_phase, hs, hc, htm, hidx, hcur, hcomp, hnext, hnstart,
    hbr', Timer.make, Timer.start, hd, hth]

/-- Helper: `advance_phase` at the last phase completes it, sets the
completed flag, clears the cursor and returns false. -/
theorem advance_phase_last (e : Exercise) (now : ℚ) (i : Nat) (cur : Phase)
    (hs : e.started = true) (hc : e.completed = false)
    (htm : (match e.timer with | some t => ! t.is_expired now | none => false) = false)
    (hidx : e.current_phase_index = some i)
    (hcur : e.phases[i]? = some cur)
    (hcs : cur.state = PhaseState.in_progress ∨ cur.state = PhaseState.countdown)
    (hlast : i + 1 = e.phases.length) :
    e.advance_phase now =
      (.ok false,
       { e with
         phases := e.phases.set i { cur with state := PhaseState.completed },
         completed := true, current_phase_index := none }) := by
  have hcomp : cur.complete = .ok { cur with state := PhaseState.completed } := by
    unfold Phase.complete
    rw [if_pos hcs]
  have hbr' : ¬(i < e.phases.length - 1) := by omega
  simp [Exercise.advance_phase, hs, hc, htm, hidx, hcur, hcomp, hbr']

/-- Helper: when the next phase's duration or the configured threshold is
out of range for the Timer constructor, `advance_phase` raises instead of
returning. -/
theorem advance_phase_make_fail (e : Exercise) (now : ℚ) (i : Nat) (cur nxt : Phase)
    (hs : e.started = true) (hc : e.completed = false)
    (htm : (match e.timer with | some t => ! t.is_expired now | none => false) = false)
    (hidx : e.current_phase_index = some i)
    (hcur : e.phases[i]? = some cur)
    (hcs : cur.state = PhaseState.in_progress ∨ cur.state = PhaseState.countdown)
    (hbr : i + 1 < e.phases.length)
    (hnxt : e.phases[i + 1]? = some nxt)
    (hnst : nxt.state = PhaseState.not_started)
    (hbad : (nxt.duration : ℚ) ≤ 0 ∨ (e.config.countdown_beep_threshold : ℚ) < 0) :
    ∀ (b : Bool) (st : Exercise), e.advance_phase now ≠ (.ok b, st) := by
  have hcomp : cur.complete = .ok { cur with state := PhaseState.completed } := by
    unfold Phase.complete
    rw [if_pos hcs]
  have hnext : (e.phases.set i { cur with state := PhaseState.completed })[i + 1]? =
      some nxt := by
    rw [List.getElem?_set_ne (by omega)]
    exact hnxt
  have hnstart : nxt.start = .ok { nxt with state := PhaseState.in_progress } := by
    unfold Phase.start
    rw [if_pos hnst]
  have hbr' : i < e.phases.length - 1 := by omega
  intro b st hcontr
  rcases hbad with hbad | hbad
  · simp [Exercise.advance_phase, hs, hc, htm, hidx, hcur, hcomp, hnext, hnstart,
      hbr', Timer.make, hbad] at hcontr
  · by_cases hd : (nxt.duration : ℚ) ≤ 0
    · simp [Exercise.advance_phase, hs, hc, htm, hidx, hcur, hcomp, hnext, hnstart,
        hbr', Timer.make, hd] at hcontr
    · simp [Exercise.advance_phase, hs, hc, htm, hidx, hcur, hcomp, hnext, hnstart,
        hbr', Timer.make, hd, hbad] at hcontr

/-- Helper: every phase produced by `_generate_phases` starts NotStarted. -/
theorem generate_phases_state (c : ExerciseConfig) :
    ∀ p ∈ generate_phases c, p.state = PhaseState.not_started := by
  intro p hp
  unfold generate_phases at hp
  simp only [List.mem_append, List.mem_flatten, List.mem_map,
    List.mem_singleton] at hp
  rcases hp with (hp | ⟨l, ⟨d, hd, rfl⟩, hpl⟩) | hp
  · split_ifs at hp with h
    · simp at hp
      subst hp
      rfl
    · simp at hp
  · simp at hpl
    rcases hpl with rfl | rfl <;> rfl
  · subst hp
    rfl

/-- Helper: a successful `start` on a freshly constructed Exercise leaves it
started, not completed, with the cursor on phase 0 and the cursor invariant
holding. -/
theorem start_ok_state (c : ExerciseConfig) (now : ℚ) (u : Unit) (e : Exercise)
    (h : (Exercise.init c).start now = (.ok u, e)) :
    e.started = true ∧ e.completed = false ∧ e.current_phase_index = some 0 ∧
    e.CursorInv 0 := by
  unfold Exercise.start Exercise.init at h
  rw [if_neg (by simp), if_neg (by simp)] at h
  simp only [] at h
  split at h
  · simp at h
  · rename_i p0 hg
    split at h
    · simp at h
    · rename_i p0s hps
      split at h
      · simp at h
      · rename_i t hmk
        split at h
        · simp at h
        · rename_i ts hts
          simp only [Prod.mk.injEq, Except.ok.injEq] at h
          obtain ⟨-, rfl⟩ := h
          -- unpack the successful phase start
          unfold Phase.start at hps
          split_ifs at hps with hst0
          simp only [Except.ok.injEq] at hps
          subst hps
          obtain ⟨hlen0, -⟩ := List.getElem?_eq_some.mp hg
          refine ⟨rfl, rfl, rfl, ?_, ?_⟩
          · simpa using hlen0
          · intro j hj
            have hjlen : j < (generate_phases c).length := by simpa using hj
            refine ⟨fun hji => by omega, fun hj0 => ?_, fun hj0 => ?_⟩
            · subst hj0
              left
              simp [stateAt, List.getElem?_set_self hlen0]
            · have hne : (0 : Nat) ≠ j := by omega
              simp [stateAt, List.getElem?_set_ne hne,
                List.getElem?_eq_getElem hjlen,
                generate_phases_state c _ (List.getElem_mem hjlen)]

/-- Helper: a successful `advance_phase` preserves the cursor invariant. -/
theorem advance_ok_preserves (e e' : Exercise) (now : ℚ) (b : Bool)
    (hs : e.started = true)
    (hcompidx : e.completed = true → e.current_phase_index = none)
    (hprev : e.completed = false → ∃ i, e.current_phase_index = some i ∧ e.CursorInv i)
    (h : e.advance_phase now = (.ok b, e')) :
    e'.started = true ∧
    (e'.completed = true → e'.current_phase_index = none) ∧
    (e'.completed = false →
      ∃ i, e'.current_phase_index = some i ∧ e'.CursorInv i) := by
  by_cases hc : e.completed = true
  · have heq : e.advance_phase now = (.ok false, e) := by
      simp [Exercise.advance_phase, hs, hc]
    rw [heq] at h
    simp only [Prod.mk.injEq, Except.ok.injEq] at h
    obtain ⟨-, rfl⟩ := h
    exact ⟨hs, hcompidx, hprev⟩
  · have hc' : e.completed = false := by
      revert hc
      cases e.completed <;> simp
    obtain ⟨i, hidx, hlen, hall⟩ := hprev hc'
    have htm : (match e.timer with
        | some t => ! t.is_expired now
        | none => false) = false := by
      by_contra hne
      have htme : (match e.timer with
          | some t => ! t.is_expired now
          | none => false) = true := by
        revert hne
        cases (match e.timer with
          | some t => ! t.is_expired now
          | none => false) <;> simp
      have heq : e.advance_phase now = (.error "Current phase not complete", e) := by
        simp [Exercise.advance_phase, hs, hc', htme]
      rw [heq] at h
      simp at h
    have hcur : e.phases[i]? = some (e.phases.get ⟨i, hlen⟩) :=
      List.getElem?_eq_getElem hlen
    have hcs : (e.phases.get ⟨i, hlen⟩).state = PhaseState.in_progress ∨
        (e.phases.get ⟨i, hlen⟩).state = PhaseState.countdown := by
      have := (hall i hlen).2.1 rfl
      unfold stateAt at this
      rw [hcur] at this
      simpa using this
    by_cases hbr : i + 1 < e.phases.length
    · have hnxt : e.phases[i + 1]? = some (e.phases.get ⟨i + 1, hbr⟩) :=
        List.getElem?_eq_getElem hbr
      have hnst : (e.phases.get ⟨i + 1, hbr⟩).state = PhaseState.not_started := by
        have := (hall (i + 1) hbr).2.2 (by omega)
        unfold stateAt at this
        rw [hnxt] at this
        simpa using this
      by_cases hd : ((e.phases.get ⟨i + 1, hbr⟩).duration : ℚ) ≤ 0
      · exact absurd h (advance_phase_make_fail e now i _ _ hs hc' htm hidx hcur hcs
          hbr hnxt hnst (Or.inl hd) b e')
      · by_cases hth : ((e.config.countdown_beep_threshold : ℚ) < 0)
        · exact absurd h (advance_phase_make_fail e now i _ _ hs hc' htm hidx hcur hcs
            hbr hnxt hnst (Or.inr hth) b e')
        · have heq := advance_phase_success e now i _ _ hs hc' htm hidx hcur hcs
            hbr hnxt hnst hd hth
          rw [heq] at h
          simp only [Prod.mk.injEq, Except.ok.injEq] at h
          obtain ⟨-, rfl⟩ := h
          refine ⟨hs, ?_, ?_⟩
          · intro hcontra
            exact absurd hcontra (by simp [hc'])
          · intro _
            refine ⟨i + 1, rfl, ?_, ?_⟩
            · simpa using hbr
            · intro j hj
              have hjlen : j < e.phases.length := by simpa using hj
              refine ⟨fun hji => ?_, fun hji => ?_, fun hji => ?_⟩
              · -- j < i + 1: prior phases are completed
                unfold stateAt
                by_cases hji' : j = i
                · subst hji'
                  have hne : j + 1 ≠ j := by omega
                  simp [List.getElem?_set_ne hne,
                    List.getElem?_set_self (by omega : j < e.phases.length)]
                · have hne1 : i + 1 ≠ j := by omega
                  have hne2 : i ≠ j := by omega
                  rw [List.getElem?_set_ne hne1, List.getElem?_set_ne hne2]
                  exact (hall j hjlen).1 (by omega)
              · -- j = i + 1: the newly started phase
                subst hji
                left
                unfold stateAt
                simp [List.getElem?_set_self
                  (by simpa using hbr : i + 1 < (e.phases.set i _).length)]
              · -- j > i + 1: later phases untouched
                unfold stateAt
                have hne1 : i + 1 ≠ j := by omega
                have hne2 : i ≠ j := by omega
                rw [List.getElem?_set_ne hne1, List.getElem?_set_ne hne2]
                exact (hall j hjlen).2.2 (by omega)
    · have hlast : i + 1 = e.phases.length := by omega
      have heq := advance_phase_last e now i _ hs hc' htm hidx hcur hcs hlast
      rw [heq] at h
      simp only [Prod.mk.injEq, Except.ok.injEq] at h
      obtain ⟨-, rfl⟩ := h
      exact ⟨hs, fun _ => rfl, fun hcontra => by simp at hcontra⟩

/-- C4: the cursor is None on a freshly constructed Exercise, and in every
state reachable by a successful `start` followed by successful
`advance_phase` calls the exercise is started, a completed exercise has no
cursor, and a running one has its cursor on an InProgress-or-Countdown
phase with all earlier phases Completed and all later phases NotStarted. -/
theorem C4_exercise_invariant :
    (∀ c : ExerciseConfig, (Exercise.init c).current_phase_index = none) ∧
    (∀ e : Exercise, ReachableRun e →
      e.started = true ∧
      (e.completed = true → e.current_phase_index = none) ∧
      (e.completed = false →
        ∃ i, e.current_phase_index = some i ∧ e.CursorInv i)) := by
  refine ⟨fun c => rfl, ?_⟩
  intro e h
  induction h with
  | start_ok c now e0 hst =>
    obtain ⟨h1, h2, h3, h4⟩ := start_ok_state c now () e0 hst
    exact ⟨h1, fun hcontra => absurd hcontra (by simp [h2]), fun _ => ⟨0, h3, h4⟩⟩
  | advance_ok e0 now b e1 hr heq ih =>
    exact advance_ok_preserves e0 e1 now b ih.1 ih.2.1 ih.2.2 heq

/-- C4 witness: the started one-step exercise is reachable and satisfies the
cursor invariant at index 0. -/
theorem C4_witness :
    ∃ i, startedOneStep.current_phase_index = some i ∧ startedOneStep.CursorInv i := by
  have hr : ReachableRun startedOneStep :=
    ReachableRun.start_ok oneStepConfig 0 startedOneStep (by rfl)
  exact (C4_exercise_invariant.2 startedOneStep hr).2.2 (by rfl)

/-- Helper: appending one cue changes the countdown count for `v` by one
exactly when the appended cue is `(countdown, v)`; the other fields of the
state are irrelevant. -/
theorem countdownCueCount_append (a : Int) (pl : List Int) (s : CueState)
    (x : Cue × Int) (v : Int) :
    countdownCueCount ⟨a, pl, s.cues ++ [x]⟩ v =
      countdownCueCount s v + (if x = (Cue.countdown, v) then 1 else 0) := by
  simp only [countdownCueCount, List.countP_append, List.countP_cons,
    List.countP_nil, decide_eq_true_eq]
  split_ifs with h <;> simp [h]

/-- Helper: appending one cue changes the transition count by one exactly
when the appended cue is a transition cue. -/
theorem transitionCueCount_append (a : Int) (pl : List Int) (s : CueState)
    (x : Cue × Int) :
    transitionCueCount ⟨a, pl, s.cues ++ [x]⟩ =
      transitionCueCount s + (if x.1 = Cue.transition then 1 else 0) := by
  simp only [transitionCueCount, List.countP_append, List.countP_cons,
    List.countP_nil, decide_eq_true_eq]
  split_ifs with h <;> simp [h]

/-- Helper: the countdown count for `v` is positive exactly when a
`(countdown, v)` cue has been emitted. -/
theorem countdownCueCount_pos_iff (s : CueState) (v : Int) :
    0 < countdownCueCount s v ↔ (Cue.countdown, v) ∈ s.cues := by
  simp [countdownCueCount, List.countP_pos_iff]

/-- Helper: the transition count is positive exactly when some transition
cue has been emitted. -/
theorem transitionCueCount_pos_iff (s : CueState) :
    0 < transitionCueCount s ↔ ∃ v, (Cue.transition, v) ∈ s.cues := by
  simp only [transitionCueCount, List.countP_pos_iff, decide_eq_true_eq]
  constructor
  · rintro ⟨⟨ck, cv⟩, hmem, hk⟩
    subst hk
    exact ⟨cv, hmem⟩
  · rintro ⟨v, hv⟩
    exact ⟨(Cue.transition, v), hv, rfl⟩

/-- Helper: one execution of the redraw/cue section preserves the per-phase
cue bookkeeping invariant. -/
theorem cueTick_preserves (audio : Bool) (thr : Int) (instr : String) (r : Int)
    (s : CueState) (h : CueInv thr instr s) :
    CueInv thr instr (cueTick audio thr instr r s) := by
  obtain ⟨H1, H2, H3, H4, H5, H6, H7⟩ := h
  simp only [cueTick]
  split_ifs with hne hc2 hc3 hc4
  · -- both a countdown cue (needs r ≥ 1) and a transition cue (needs r = 0):
    -- impossible on the same tick
    obtain ⟨-, hr1, -, -⟩ := hc2
    obtain ⟨-, hr0, -, -⟩ := hc3
    omega
  · -- countdown cue only
    obtain ⟨-, hr1, hrthr, hrnew⟩ := hc2
    dsimp only
    have hz : countdownCueCount s r = 0 := by
      by_contra hx
      exact hrnew (H2 r (Nat.pos_of_ne_zero hx))
    refine ⟨?_, ?_, ?_, ?_, ?_, ?_, ?_⟩
    · intro v
      rw [countdownCueCount_append]
      by_cases hv : v = r
      · subst hv
        rw [hz]
        simp
      · rw [if_neg (by simp [Ne.symm hv])]
        simpa using H1 v
    · intro v hv
      by_cases hvr : v = r
      · subst hvr
        exact List.mem_cons_self v s.played
      · rw [countdownCueCount_append, if_neg (by simp [Ne.symm hvr])] at hv
        exact List.mem_cons_of_mem _ (H2 v (by simpa using hv))
    · intro c hc hcd
      rcases List.mem_append.mp hc with hold | hnew
      · exact H3 c hold hcd
      · simp only [List.mem_singleton] at hnew
        subst hnew
        exact ⟨hr1, hrthr⟩
    · rw [transitionCueCount_append, if_neg (by simp)]
      simpa using H4
    · intro hv
      rw [transitionCueCount_append, if_neg (by simp)] at hv
      exact List.mem_cons_of_mem _ (H5 (by simpa using hv))
    · intro c hc hct
      rcases List.mem_append.mp hc with hold | hnew
      · exact H6 c hold hct
      · simp only [List.mem_singleton] at hnew
        subst hnew
        simp at hct
    · intro hC
      rw [transitionCueCount_append, if_neg (by simp)]
      simpa using H7 hC
  · -- transition cue only
    obtain ⟨-, hr0, h0s, hinstr⟩ := hc4
    subst hr0
    dsimp only
    have htc0 : transitionCueCount s = 0 := by
      by_contra hx
      exact h0s (H5 (Nat.pos_of_ne_zero hx))
    refine ⟨?_, ?_, ?_, ?_, ?_, ?_, ?_⟩
    · intro v
      rw [countdownCueCount_append, if_neg (by simp)]
      simpa using H1 v
    · intro v hv
      rw [countdownCueCount_append, if_neg (by simp)] at hv
      exact List.mem_cons_of_mem _ (H2 v (by simpa using hv))
    · intro c hc hcd
      rcases List.mem_append.mp hc with hold | hnew
      · exact H3 c hold hcd
      · simp only [List.mem_singleton] at hnew
        subst hnew
        simp at hcd
    · rw [transitionCueCount_append, htc0]
      simp
    · intro _
      exact List.mem_cons_self 0 s.played
    · intro c hc hct
      rcases List.mem_append.mp hc with hold | hnew
      · exact H6 c hold hct
      · simp only [List.mem_singleton] at hnew
        subst hnew
        rfl
    · intro hC
      exact absurd hC hinstr
  · -- redraw only, no cue
    exact ⟨H1, H2, H3, H4, H5, H6, H7⟩
  · -- no redraw: state unchanged
    exact ⟨H1, H2, H3, H4, H5, H6, H7⟩

/-- Helper: the cue bookkeeping invariant is preserved by any sequence of
observed remaining values. -/
theorem cueRun_preserves (audio : Bool) (thr : Int) (instr : String)
    (obs : List Int) :
    ∀ s : CueState, CueInv thr instr s →
      CueInv thr instr (cueRun audio thr instr obs s) := by
  induction obs with
  | nil =>
    intro s h
    simpa [cueRun] using h
  | cons r rest ih =>
    intro s h
    have hstep := cueTick_preserves audio thr instr r s h
    simpa [cueRun] using ih _ hstep

/-- Helper: the invariant holds for the fresh bookkeeping state. -/
theorem CueInv_fresh (thr : Int) (instr : String) : CueInv thr instr freshCueState := by
  refine ⟨?_, ?_, ?_, ?_, ?_, ?_, ?_⟩ <;>
    simp [freshCueState, countdownCueCount, transitionCueCount]

/-- C6: with audio enabled, over any sequence of observed integer remaining
values within one phase, a countdown cue fires at most once per distinct
value and only for values in [1, countdown_beep_threshold]; a transition
cue fires at most once, only at remaining = 0, and never for the terminal
phase labeled "Complete"; and the per-phase bookkeeping reset performed on
every phase advance restores the fresh sentinel and empties the consumed
set. -/
theorem C6_audio_cue_gating (thr : Int) (instr : String) (obs : List Int) :
    (∀ r : Int, countdownCueCount (cueRun true thr instr obs freshCueState) r ≤ 1) ∧
    (∀ c ∈ (cueRun true thr instr obs freshCueState).cues,
      c.1 = Cue.countdown → 1 ≤ c.2 ∧ c.2 ≤ thr) ∧
    transitionCueCount (cueRun true thr instr obs freshCueState) ≤ 1 ∧
    (∀ c ∈ (cueRun true thr instr obs freshCueState).cues,
      c.1 = Cue.transition → c.2 = 0) ∧
    (instr = "Complete" →
      transitionCueCount (cueRun true thr instr obs freshCueState) = 0) ∧
    (∀ s : CueState,
      (advanceReset s).last_second = -1 ∧ (advanceReset s).played = []) := by
  have h := cueRun_preserves true thr instr obs freshCueState (CueInv_fresh thr instr)
  exact ⟨h.1, h.2.2.1, h.2.2.2.1, h.2.2.2.2.2.1, h.2.2.2.2.2.2,
    fun s => ⟨rfl, rfl⟩⟩

/-- C6 witness: no transition cue is ever emitted for the terminal
"Complete" phase, here over the observation sequence 3,2,1,0. -/
theorem C6_witness :
    transitionCueCount (cueRun true 3 "Complete" [3, 2, 1, 0] freshCueState) = 0 :=
  (C6_audio_cue_gating 3 "Complete" [3, 2, 1, 0]).2.2.2.2.1 rfl

/-- C8: a full run of the one-breathing-step (duration 1, no preparation,
audio disabled) configuration, under a clock advancing 1 second per loop
iteration from instant 0, terminates within the fuel bound: the loop
advances through the Hold phase and the terminal "Complete" marker, exits,
and `run_exercise` returns success (true) without raising. -/
theorem C8_full_run_terminates :
    run_exercise oneStepConfig 10 0 1 = .ok (some true) := by
  norm_num [run_exercise, Exercise.init, Exercise.start, generate_phases,
    oneStepConfig, Timer.make, Timer.start, loopRun, loopIter, postLoop,
    Exercise.get_current_phase, Exercise.is_complete, Exercise.advance_phase,
    Exercise.set_current_phase, Phase.start, Phase.complete, Phase.enter_countdown,
    Phase.is_in_progress, Timer.is_expired, Timer.elapsed, Timer.remaining_time,
    Timer.in_countdown, cueTick, advanceReset, freshCueState, max_def,
    Int.floor_zero, Int.floor_one, PREPARATION_INSTRUCTION, HOLD_INSTRUCTION,
    BREATHING_INSTRUCTION]

end Breathwork
